import Mathlib

/-!
# Verification of `i2c-int-monitor`

A shallow embedding of the core logic of the `i2c-int-monitor` repository
(`src/interrupts.rs`, `src/discovery.rs`, `src/tui.rs`, `src/main.rs`) and
proofs about it.

Modelling conventions:
* Rust `&str` / `String` values are modelled as `List Char` (`Str` below),
  so that the byte-level parsing loops translate to structural recursion.
* `u64` / `u32` / `u16` / `u8` counters are modelled as `ℕ`; the parsing
  functions enforce the corresponding upper bounds exactly where Rust's
  `parse` / `from_str_radix` would report overflow.  `saturating_sub` on
  unsigned integers is `ℕ` truncated subtraction.
* `f64` rate arithmetic is modelled exactly over `ℚ`; `f64::log10(..).floor()`
  followed by `10f64.powf(..)` is modelled by `Int.log 10` and `zpow`, which
  compute the same integer exponent exactly for positive rationals.
  The sentinel initial values `f64::MAX` / `f64::MIN` of the running min/max
  fields are modelled by `Option ℚ` with `none` as "still the sentinel".
* `HashMap` values are modelled as association lists with replace-on-insert
  semantics; iteration order never matters for the properties proved here.
* Filesystem access in `discovery.rs` is modelled by an explicit `Fs` record:
  `none` for a file/directory that cannot be read / does not exist.
-/

namespace I2cMon

/-- Rust string slices, modelled as lists of characters. -/
abbrev Str := List Char

/-! ## Character / string primitives used by the Rust code -/

/-- Whitespace test used by `trim` / `split_whitespace` (the inputs handled
by the program only contain ASCII whitespace). -/
def isWS (c : Char) : Bool := c.isWhitespace

/-- Split a list at every element satisfying `p`; the separators are dropped
and empty chunks are kept (the behaviour of Rust's `str::split`). -/
def splitBy (p : Char → Bool) : Str → List Str
  | [] => [[]]
  | c :: cs =>
    let r := splitBy p cs
    if p c then [] :: r
    else
      match r with
      | [] => [[c]]
      | g :: gs => (c :: g) :: gs

/-- Rust `str::split_whitespace`: maximal runs of non-whitespace characters. -/
def split_whitespace (s : Str) : List Str :=
  (splitBy isWS s).filter (fun g => g ≠ [])

/-- Rust `str::trim` (both ends). -/
def trim (s : Str) : Str :=
  ((s.dropWhile isWS).reverse.dropWhile isWS).reverse

/-- Rust `str::trim_end_matches (c)`: repeatedly remove a trailing `c`. -/
def trimEndMatches (c : Char) (s : Str) : Str :=
  (s.reverse.dropWhile (fun x => x = c)).reverse

/-- Strip one trailing carriage return (the `\r` handling of `str::lines`). -/
def stripCR (s : Str) : Str :=
  if s.getLast? = some '\r' then s.dropLast else s

/-- Rust `str::lines`: split on `'\n'`, dropping a final empty chunk produced
by a trailing newline; a `'\r'` directly before a line feed is removed. -/
def rustLines (s : Str) : List Str :=
  let parts := splitBy (fun c => c = '\n') s
  if parts.getLast? = some [] then (parts.dropLast).map stripCR
  else (parts.dropLast).map stripCR ++ parts.drop (parts.length - 1)

/-- Numeric value of a decimal digit. -/
def digitVal (c : Char) : ℕ := c.toNat - '0'.toNat

/-- Rust unsigned `FromStr` (`"123".parse::<uN>()`): an optional leading `'+'`,
then one or more ASCII digits, rejecting values above `bound`. -/
def parseNatBounded (bound : ℕ) (s : Str) : Option ℕ :=
  let ds := match s with
    | '+' :: rest => rest
    | other => other
  if ds = [] then none
  else if ds.all (fun c => c.isDigit) then
    let v := ds.foldl (fun a c => a * 10 + digitVal c) 0
    if v ≤ bound then some v else none
  else none

/-- `str::parse::<u64>()`. -/
def parseU64 (s : Str) : Option ℕ := parseNatBounded (2 ^ 64 - 1) s

/-- `str::parse::<u8>()`. -/
def parseU8 (s : Str) : Option ℕ := parseNatBounded 255 s

/-- Hexadecimal digit test (`from_str_radix(_, 16)`). -/
def isHexDigitB (c : Char) : Bool :=
  c.isDigit || ('a' ≤ c && c ≤ 'f') || ('A' ≤ c && c ≤ 'F')

/-- Numeric value of a hexadecimal digit. -/
def hexVal (c : Char) : ℕ :=
  if c.isDigit then c.toNat - '0'.toNat
  else if 'a' ≤ c && c ≤ 'f' then c.toNat - 'a'.toNat + 10
  else c.toNat - 'A'.toNat + 10

/-- Rust `str::contains (pat)`: `pat` occurs as a contiguous substring. -/
def isInfixB (pat : Str) : Str → Bool
  | [] => pat.isEmpty
  | c :: rest => pat.isPrefixOf (c :: rest) || isInfixB pat rest

/-- Rust `u16::from_str_radix(s, 16)`: optional `'+'`, then hex digits,
rejecting values above `0xFFFF`. -/
def parseHexU16 (s : Str) : Option ℕ :=
  let ds := match s with
    | '+' :: rest => rest
    | other => other
  if ds = [] then none
  else if ds.all isHexDigitB then
    let v := ds.foldl (fun a c => a * 16 + hexVal c) 0
    if v ≤ 0xFFFF then some v else none
  else none

/-! ## `src/interrupts.rs` -/

/-- One line of the kernel counter table: IRQ identifier and summed count
(`InterruptSource` in `interrupts.rs`). -/
structure InterruptSource where
  irq : Str
  count : ℕ
deriving DecidableEq, Repr

/-- The count-summing loop of `parse_interrupt_line`: starting at the token
after the IRQ field, add successfully parsed `u64` tokens, consuming at most
`fuel` tokens (`fuel` is the CPU-column count), and stop at the first token
that does not parse.  The accumulator is a `u64` (`count += n`), so the
addition wraps modulo `2 ^ 64`; since wrapping addition is the image of `ℕ`
addition under `% 2 ^ 64`, folding from either end gives the same value. -/
def sumLeading : List Str → ℕ → ℕ
  | [], _ => 0
  | _ :: _, 0 => 0
  | t :: ts, Nat.succ n =>
    match parseU64 t with
    | some v => (v + sumLeading ts n) % 2 ^ 64
    | none => 0

/-- `parse_interrupt_line` from `interrupts.rs`: trim the line, reject blank
lines, take the first whitespace-delimited token (with trailing `':'`
removed) as the IRQ id, and sum the leading numeric columns. -/
def parse_interrupt_line (line : Str) (cpu_count : ℕ) : Option InterruptSource :=
  let l := trim line
  if l = [] then none
  else
    let parts := split_whitespace l
    if parts = [] then none
    else
      some { irq := trimEndMatches ':' (parts.headD [])
             count := sumLeading (parts.drop 1) cpu_count }

/-- `parse_interrupts` from `interrupts.rs`: the first line is the header
whose whitespace-token count is the CPU-column count; every further line is
fed to `parse_interrupt_line`, collecting the successes. -/
def parse_interrupts (content : Str) : Except String (List InterruptSource) :=
  match rustLines content with
  | [] => .error "empty /proc/interrupts"
  | header :: rest =>
    let cpu_count := (split_whitespace header).length
    .ok (rest.filterMap (fun line => parse_interrupt_line line cpu_count))

/-! ## `src/discovery.rs`: data model -/

/-- `HidDevice` from `discovery.rs`. -/
structure HidDevice where
  acpi_name : Str
  vendor_id : ℕ
  product_id : ℕ
  device_type : Str
  driver : Str
  bus_num : ℕ
  controller : Str
  gpio_irq : Option Str
  input_names : List Str
deriving DecidableEq, Repr

/-- `I2cController` from `discovery.rs`. -/
structure I2cController where
  name : Str
  bus_num : ℕ
  irq : Option Str
  hid_devices : List HidDevice
deriving DecidableEq, Repr

/-- `I2cTopology` from `discovery.rs`; the two `HashMap<String, String>`
fields are association lists with replace-on-insert semantics. -/
structure I2cTopology where
  controllers : List I2cController
  gpio_irqs : List (Str × Str)
  controller_irqs : List (Str × Str)
deriving DecidableEq, Repr

/-- `InterruptSourceInfo` from `discovery.rs`. -/
structure InterruptSourceInfo where
  irq : Str
  name : Str
  device_type : Str
  is_controller : Bool
  parent_controller : Option Str
  indent_level : ℕ
deriving DecidableEq, Repr

/-- HashMap lookup on the association-list model. -/
def lookupA {α : Type} : List (Str × α) → Str → Option α
  | [], _ => none
  | p :: ps, k => if p.1 = k then some p.2 else lookupA ps k

/-- HashMap insert on the association-list model (replace on duplicate key). -/
def insertA {α : Type} (m : List (Str × α)) (k : Str) (v : α) : List (Str × α) :=
  (m.filter (fun p => p.1 ≠ k)) ++ [(k, v)]

/-- The `device_summary` string built for a controller row in `all_sources`:
`" (type1, type2)"` when the controller has devices, empty otherwise. -/
def deviceSummary (c : I2cController) : Str :=
  if c.hid_devices = [] then []
  else
    " (".toList ++ List.intercalate ", ".toList (c.hid_devices.map (fun d => d.device_type))
      ++ ")".toList

/-- The controller row pushed by `all_sources` for a controller whose IRQ is
known. -/
def ctrlInfo (c : I2cController) (irq : Str) : InterruptSourceInfo :=
  { irq := irq
    name := c.name ++ deviceSummary c
    device_type := "I2C Controller".toList
    is_controller := true
    parent_controller := none
    indent_level := 0 }

/-- The device row pushed by `all_sources` for a device with a GPIO IRQ. -/
def devInfo (c : I2cController) (d : HidDevice) (irq : Str) : InterruptSourceInfo :=
  { irq := irq
    name := d.acpi_name
    device_type := d.device_type
    is_controller := false
    parent_controller := some c.name
    indent_level := 1 }

/-- `I2cTopology::all_sources`, translated loop by loop: for each controller,
push a controller row if `controller.irq` is `Some`, then for each of its HID
devices push a device row if `device.gpio_irq` is `Some`. -/
def I2cTopology.all_sources (t : I2cTopology) : List InterruptSourceInfo :=
  t.controllers.foldl
    (fun acc c =>
      let acc1 :=
        match c.irq with
        | some irq => acc ++ [ctrlInfo c irq]
        | none => acc
      c.hid_devices.foldl
        (fun acc2 d =>
          match d.gpio_irq with
          | some irq => acc2 ++ [devInfo c d irq]
          | none => acc2)
        acc1)
    []

/-- The flat source list as the specification describes it: per controller, a
controller row exactly when the controller IRQ is known, followed by one
device row per attached device that has a GPIO IRQ (naming the controller as
parent); a controller lacking an IRQ contributes no controller row but its
devices still appear. -/
def allSourcesSpec (t : I2cTopology) : List InterruptSourceInfo :=
  t.controllers.flatMap
    (fun c =>
      (match c.irq with
       | some irq => [ctrlInfo c irq]
       | none => []) ++
      c.hid_devices.filterMap (fun d => (d.gpio_irq).map (fun irq => devInfo c d irq)))

/-! ## `src/tui.rs` -/

/-- `MAX_POINTS` from `tui.rs`: maximum data points per source. -/
def MAX_POINTS : ℕ := 300

/-- `TARGET_Y_LABELS` from `tui.rs`. -/
def TARGET_Y_LABELS : ℚ := 5

/-- `nice_step` from `tui.rs`.  `raw_step.log10().floor()` and
`10f64.powf(exponent)` are modelled exactly by `Int.log 10` and an integer
power. -/
def nice_step (max_value : ℚ) : ℚ :=
  if max_value ≤ 0 then 1
  else
    let raw_step := max_value / TARGET_Y_LABELS
    let exponent : ℤ := Int.log 10 raw_step
    let fraction := raw_step / (10 : ℚ) ^ exponent
    let nice_fraction : ℚ :=
      if fraction ≤ 1 then 1
      else if fraction ≤ 2 then 2
      else if fraction ≤ 5 then 5
      else 10
    nice_fraction * (10 : ℚ) ^ exponent

/-- `ceil_to_step` from `tui.rs`: `(value / step).ceil() * step`. -/
def ceil_to_step (value step : ℚ) : ℚ :=
  (⌈value / step⌉ : ℚ) * step

/-- The shared scrolling-window push (`SourceHistory::push` lines 106-109 and
`App::sample` lines 294-297): drop the front sample when the buffer is full,
then append at the back. -/
def windowPush (data : List (ℚ × ℚ)) (x : ℚ × ℚ) : List (ℚ × ℚ) :=
  (if MAX_POINTS ≤ data.length then data.tail else data) ++ [x]

/-- The rate computation shared by `SourceHistory::push` and `cmd_monitor`:
`count.saturating_sub(prev) as f64 / interval_s`. -/
def rateOf (prev curr : ℕ) (interval_s : ℚ) : ℚ :=
  ((curr - prev : ℕ) : ℚ) / interval_s

/-- `x.min(r)` where `x` may still be the `f64::MAX` sentinel (`none`). -/
def minSentinel (o : Option ℚ) (r : ℚ) : Option ℚ :=
  some (match o with
        | none => r
        | some v => min v r)

/-- `x.max(r)` where `x` may still be the `f64::MIN` sentinel (`none`). -/
def maxSentinel (o : Option ℚ) (r : ℚ) : Option ℚ :=
  some (match o with
        | none => r
        | some v => max v r)

/-- `SourceHistory` from `tui.rs`. -/
structure SourceHistory where
  irq : Str
  name : Str
  device_type : Str
  is_controller : Bool
  color_idx : ℕ
  data : List (ℚ × ℚ)
  prev_count : ℕ
  latest_rate : ℚ
  rate_sum : ℚ
  rate_min : Option ℚ
  rate_max : Option ℚ
  visible : Bool
deriving DecidableEq, Repr

/-- `SourceHistory::new`. -/
def SourceHistory.new (info : InterruptSourceInfo) (initial_count : ℕ)
    (color_idx : ℕ) : SourceHistory :=
  { irq := info.irq
    name := info.name
    device_type := info.device_type
    is_controller := info.is_controller
    color_idx := color_idx
    data := []
    prev_count := initial_count
    latest_rate := 0
    rate_sum := 0
    rate_min := none
    rate_max := none
    visible := true }

/-- `SourceHistory::push`. -/
def SourceHistory.push (h : SourceHistory) (elapsed_s : ℚ) (count : ℕ)
    (interval_s : ℚ) : SourceHistory :=
  let rate := rateOf h.prev_count count interval_s
  { h with
    data := windowPush h.data (elapsed_s, rate)
    prev_count := count
    latest_rate := rate
    rate_sum := h.rate_sum + rate
    rate_min := minSentinel h.rate_min rate
    rate_max := maxSentinel h.rate_max rate }

/-- `App` from `tui.rs`.  The `start : Instant` field is replaced by passing
the elapsed time into `sample` explicitly (in the source it is read from the
clock at the top of `sample`). -/
structure App where
  sources : List SourceHistory
  total_history : List (ℚ × ℚ)
  total_latest : ℚ
  total_sum : ℚ
  total_min : Option ℚ
  total_max : Option ℚ
  sample_count : ℕ
  interval_ms : ℕ
  should_quit : Bool
  selected_idx : ℕ
  total_visible : Bool
  threshold : ℚ
deriving DecidableEq, Repr

/-- `App::new`. -/
def App.new (interval_ms : ℕ) (threshold : ℚ) : App :=
  { sources := []
    total_history := []
    total_latest := 0
    total_sum := 0
    total_min := none
    total_max := none
    sample_count := 0
    interval_ms := interval_ms
    should_quit := false
    selected_idx := 0
    total_visible := true
    threshold := threshold }

/-- `App::selectable_count`: the sources plus the TOTAL row. -/
def App.selectable_count (app : App) : ℕ :=
  app.sources.length + 1

/-- `App::select_prev`. -/
def App.select_prev (app : App) : App :=
  let count := app.selectable_count
  if count = 0 then app
  else if app.selected_idx > 0 then { app with selected_idx := app.selected_idx - 1 }
  else { app with selected_idx := count - 1 }

/-- `App::select_next`. -/
def App.select_next (app : App) : App :=
  let count := app.selectable_count
  if count = 0 then app
  else { app with selected_idx := (app.selected_idx + 1) % count }

/-- `App::toggle_visibility`. -/
def App.toggle_visibility (app : App) : App :=
  if h : app.selected_idx < app.sources.length then
    { app with
      sources := app.sources.set app.selected_idx
        (let s := app.sources.get ⟨app.selected_idx, h⟩
         { s with visible := !s.visible }) }
  else { app with total_visible := !app.total_visible }

/-- The per-source loop of `App::sample` (lines 286-292): each source present
in the snapshot is pushed and its fresh `latest_rate` added to the running
total; a source whose IRQ is absent is left untouched and contributes
nothing. -/
def sampleGo (counts : Str → Option ℕ) (elapsed interval_s : ℚ) :
    List SourceHistory → List SourceHistory × ℚ
  | [] => ([], 0)
  | s :: rest =>
    let r := sampleGo counts elapsed interval_s rest
    match counts s.irq with
    | some c =>
      let s' := s.push elapsed c interval_s
      (s' :: r.1, s'.latest_rate + r.2)
    | none => (s :: r.1, r.2)

/-- `App::sample`: update every tracked series from a fresh counter snapshot
and append the synthetic TOTAL value. -/
def App.sample (app : App) (elapsed : ℚ) (irq_counts : Str → Option ℕ) : App :=
  let interval_s : ℚ := (app.interval_ms : ℚ) / 1000
  let r := sampleGo irq_counts elapsed interval_s app.sources
  { app with
    sources := r.1
    total_history := windowPush app.total_history (elapsed, r.2)
    total_latest := r.2
    total_sum := app.total_sum + r.2
    total_min := minSentinel app.total_min r.2
    total_max := maxSentinel app.total_max r.2
    sample_count := app.sample_count + 1 }

/-- The maximum-rate scan of `App::y_max` (lines 237-250): the largest rate
over all data points of visible sources, and of the TOTAL history when it is
visible, starting from `0.0`. -/
def App.visible_max (app : App) : ℚ :=
  let m := app.sources.foldl
    (fun m s =>
      if s.visible then s.data.foldl (fun m2 p => max m2 p.2) m else m)
    0
  if app.total_visible then app.total_history.foldl (fun m2 p => max m2 p.2) m
  else m

/-- `App::y_max`: inflate the visible maximum by 10%, floor at 10, and round
up to a whole multiple of the nice step. -/
def App.y_max (app : App) : ℚ :=
  let raw_max := max (app.visible_max * (11 / 10)) 10
  let step := nice_step raw_max
  ceil_to_step raw_max step

/-! ## `src/main.rs`: `cmd_monitor` sampling loop body -/

/-- The per-source body of one `cmd_monitor` loop iteration (lines 190-204):
for each source in order, read the current count (0 when the IRQ is absent
from the snapshot), read the baseline (0 when missing), compute the rate,
overwrite the baseline with the current count, and record whether any rate
exceeded the threshold.  Returns the updated baseline map, the rates in
source order, and the `any_high` flag. -/
def monitorGo (current : Str → Option ℕ) (interval_s threshold : ℚ) :
    List InterruptSourceInfo → List (Str × ℕ) → List (Str × ℕ) × List ℚ × Bool
  | [], prev => (prev, [], false)
  | src :: rest, prev =>
    let curr := (current src.irq).getD 0
    let p := (lookupA prev src.irq).getD 0
    let rate := rateOf p curr interval_s
    let r := monitorGo current interval_s threshold rest (insertA prev src.irq curr)
    (r.1, rate :: r.2.1, (decide (rate > threshold) || r.2.2))

/-- One tick of the `cmd_monitor` loop over all sources. -/
def monitor_tick (sources : List InterruptSourceInfo) (prev_counts : List (Str × ℕ))
    (current : Str → Option ℕ) (interval_s threshold : ℚ) :
    List (Str × ℕ) × List ℚ × Bool :=
  monitorGo current interval_s threshold sources prev_counts

/-! ## `src/discovery.rs`: the `discover` pass

The filesystem is abstracted by `Fs`: `none` models a file that cannot be
read or a directory that does not exist (`Path::exists()` returning
`false`); a present directory is its entry listing. -/

/-- One entry of `/sys/bus/i2c/drivers/i2c_hid_acpi`: the file name and the
`read_link` result (`none` models a failing `read_link`, which the source
defaults to the empty path). -/
structure DirEntry where
  name : Str
  linkTarget : Option Str
deriving DecidableEq, Repr

/-- One entry of `/sys/bus/hid/devices`: its name, the contents of its
`uevent` file (`none` when unreadable), and the contents of the `name` files
of its bound input devices. -/
structure HidEntry where
  name : Str
  uevent : Option Str
  inputNameFiles : List Str
deriving DecidableEq, Repr

/-- The slice of the filesystem that `discover` reads. -/
structure Fs where
  procInterrupts : Option Str
  i2cHidDriverDir : Option (List DirEntry)
  hidDevicesDir : Option (List HidEntry)
deriving Repr

/-- `extract_acpi_name` from `discovery.rs`: the last whitespace token that
contains a colon, starts with an ASCII uppercase letter, and does not look
like an interrupt-kind annotation. -/
def extract_acpi_name (line : Str) : Option Str :=
  (split_whitespace line).reverse.find? (fun part =>
    part.contains ':' &&
    (match part with
     | c :: _ => decide ('A' ≤ c) && decide (c ≤ 'Z')
     | [] => false) &&
    !(isInfixB "IR-".toList part) &&
    !(isInfixB "PCI-".toList part))

/-- `extract_controller_name` from `discovery.rs`. -/
def extract_controller_name (path : Str) : Str :=
  match (splitBy (fun c => c = '/') path).find?
      (fun part => ("i2c_designware.".toList).isPrefixOf part) with
  | some p => p
  | none => "unknown".toList

/-- `extract_bus_num` from `discovery.rs`: first `/`-separated segment of the
form `i2c-N` with `N` parsing as a `u8`; `0` when none does. -/
def extract_bus_num (path : Str) : ℕ :=
  ((splitBy (fun c => c = '/') path).findSome? (fun part =>
    if ("i2c-".toList).isPrefixOf part then parseU8 (part.drop 4) else none)).getD 0

/-- The `/proc/interrupts` scan of `discover` (lines 135-169), one line:
record `acpi_name → irq` for GPIO-controller lines and
`controller_name → irq` for every `i2c_designware` token of bus-controller
lines. -/
def scanLine (t : I2cTopology) (rawLine : Str) : I2cTopology :=
  let line := trim rawLine
  if line = [] then t
  else
    let irq := trim ((splitBy (fun c => c = ':') line).headD [])
    let t1 :=
      if isInfixB "intel-gpio".toList line || isInfixB "pinctrl".toList line then
        match extract_acpi_name line with
        | some acpi => { t with gpio_irqs := insertA t.gpio_irqs acpi irq }
        | none => t
      else t
    if isInfixB "i2c_designware".toList line then
      let cm := (splitBy (fun c => c = ' ' || c = ',') line).foldl
        (fun m part =>
          if isInfixB "i2c_designware".toList part then insertA m (trim part) irq
          else m)
        t1.controller_irqs
      { t1 with controller_irqs := cm }
    else t1

/-- `to_lowercase` (the inputs handled here are ASCII). -/
def toLowerStr (s : Str) : Str := s.map Char.toLower

/-- `determine_device_type` from `discovery.rs`: input-name substrings take
precedence, then driver-name heuristics. -/
def determine_device_type (d : HidDevice) : Str :=
  match d.input_names.findSome? (fun name =>
    let nl := toLowerStr name
    if isInfixB "touchpad".toList nl then some "Touchpad".toList
    else if isInfixB "touchscreen".toList nl then some "Touchscreen".toList
    else if isInfixB "stylus".toList nl || isInfixB "pen".toList nl then
      some "Stylus".toList
    else if isInfixB "keyboard".toList nl then some "Keyboard".toList
    else none) with
  | some t => t
  | none =>
    if d.driver = "hid-multitouch".toList then
      if d.vendor_id = 0x093A then "Touchpad".toList else "Touchscreen".toList
    else if d.driver = "hid-sensor-hub".toList then "Sensor Hub".toList
    else if d.driver = "hid-generic".toList then
      match d.input_names.find? (fun name =>
        isInfixB "Radio".toList name || isInfixB "Consumer".toList name) with
      | some _ => "Keyboard/Controls".toList
      | none => "Input Device".toList
    else "HID Device".toList

/-- The matching-entry scan of `discover_hid_device` over
`/sys/bus/hid/devices`: the first entry named `0018:...` whose readable
`uevent` mentions the ACPI name yields `(vendor_id, product_id, driver,
input names)`. -/
def matchHid (acpi : Str) : List HidEntry → Option (ℕ × ℕ × Str × List Str)
  | [] => none
  | e :: es =>
    if !(("0018:".toList).isPrefixOf e.name) then matchHid acpi es
    else
      match e.uevent with
      | none => matchHid acpi es
      | some u =>
        if !(isInfixB acpi u) then matchHid acpi es
        else
          let parts := splitBy (fun c => c = ':') e.name
          let vid :=
            if 3 ≤ parts.length then (parseHexU16 (parts.getD 1 [])).getD 0 else 0
          let pid :=
            if 3 ≤ parts.length then
              (parseHexU16 ((splitBy (fun c => c = '.') (parts.getD 2 [])).headD [])).getD 0
            else 0
          let driver := (rustLines u).foldl
            (fun acc l => if ("DRIVER=".toList).isPrefixOf l then l.drop 7 else acc) []
          some (vid, pid, driver, e.inputNameFiles.map trim)

/-- `discover_hid_device` from `discovery.rs`: start from the defaulted
record (GPIO IRQ looked up in the map built from the counter table), fill in
identity/driver/input details from the generic HID bus directory when it
exists and an entry matches, then classify. -/
def discover_hid_device (fs : Fs) (acpi_name controller : Str) (bus_num : ℕ)
    (t : I2cTopology) : HidDevice :=
  let base : HidDevice :=
    { acpi_name := acpi_name
      vendor_id := 0
      product_id := 0
      device_type := "Unknown".toList
      driver := []
      bus_num := bus_num
      controller := controller
      gpio_irq := lookupA t.gpio_irqs acpi_name
      input_names := [] }
  let dev :=
    match fs.hidDevicesDir with
    | none => base
    | some entries =>
      match matchHid acpi_name entries with
      | none => base
      | some (vid, pid, drv, inputs) =>
        { base with vendor_id := vid, product_id := pid, driver := drv,
                    input_names := inputs }
  { dev with device_type := determine_device_type dev }

/-- One entry of the `i2c_hid_acpi` driver-directory loop of `discover`
(lines 177-213): skip entries not named `i2c-...`, recover the controller
name and bus number from the symlink target, build the device, and append it
to its controller (creating the controller on first sight). -/
def processEntry (fs : Fs) (t : I2cTopology) (m : List (Str × I2cController))
    (e : DirEntry) : List (Str × I2cController) :=
  if !(("i2c-".toList).isPrefixOf e.name) then m
  else
    let acpi_name := e.name.drop 4
    let real_path := e.linkTarget.getD []
    let controller_name := extract_controller_name real_path
    let bus_num := extract_bus_num real_path
    let hid_device := discover_hid_device fs acpi_name controller_name bus_num t
    match lookupA m controller_name with
    | some c =>
      insertA m controller_name { c with hid_devices := c.hid_devices ++ [hid_device] }
    | none =>
      m ++ [(controller_name,
             { name := controller_name
               bus_num := bus_num
               irq := lookupA t.controller_irqs controller_name
               hid_devices := [hid_device] })]

/-- The association-list of controllers built by the driver-directory walk of
`discover`: empty when the directory does not exist. -/
def discoverControllers (fs : Fs) (t : I2cTopology) : List (Str × I2cController) :=
  match fs.i2cHidDriverDir with
  | none => []
  | some entries => entries.foldl (processEntry fs t) []

/-- The successful body of `discover`: scan the counter table for IRQ
ownership hints, walk the HID-over-I2C driver directory when it exists, and
sort the controllers by bus number. -/
def discoverBody (fs : Fs) (content : Str) : I2cTopology :=
  let t0 : I2cTopology := { controllers := [], gpio_irqs := [], controller_irqs := [] }
  let t := (rustLines content).foldl scanLine t0
  let ctrls := ((discoverControllers fs t).map (fun p => p.2)).mergeSort
    (fun a b => decide (a.bus_num ≤ b.bus_num))
  { t with controllers := ctrls }

/-- `discover` from `discovery.rs`: fails exactly when the counter table
cannot be read; in this filesystem model no other step can fail. -/
def discover (fs : Fs) : Except String I2cTopology :=
  match fs.procInterrupts with
  | none => .error "failed to read /proc/interrupts"
  | some content => .ok (discoverBody fs content)

/-- A device record carrying none of the details that are read from the
generic HID bus directory: identity zeroed, no driver, no input names, and
the fallback classification. -/
def detailFree (d : HidDevice) : Prop :=
  d.vendor_id = 0 ∧ d.product_id = 0 ∧ d.driver = [] ∧ d.input_names = []
    ∧ d.device_type = "HID Device".toList

/-! ## Claim-side derived notions -/

/-- The per-tick rate of one tracked series against a snapshot, as the
specification describes it: the clamped delta over the nominal interval for a
present IRQ, and zero for an IRQ absent from the snapshot. -/
def tickRate (counts : Str → Option ℕ) (interval_s : ℚ) (s : SourceHistory) : ℚ :=
  match counts s.irq with
  | some c => rateOf s.prev_count c interval_s
  | none => 0

/-! ## Concrete fixtures used to instantiate the theorems -/

/-- A concrete interrupt-source row (IRQ "42"). -/
def wInfo : InterruptSourceInfo :=
  { irq := "42".toList, name := "d".toList, device_type := "T".toList,
    is_controller := false, parent_controller := none, indent_level := 1 }

/-- A fresh history for `wInfo` with baseline count 5. -/
def wHist : SourceHistory := SourceHistory.new wInfo 5 0

/-- An application state tracking only `wInfo`. -/
def wApp : App := { App.new 1000 100 with sources := [wHist] }

/-- A completely full scrolling window. -/
def wFull : List (ℚ × ℚ) := List.replicate MAX_POINTS (0, 0)

/-- `wHist` with a full data window. -/
def wHistFull : SourceHistory := { wHist with data := wFull }

/-- `wApp` with a full TOTAL window. -/
def wAppFull : App := { wApp with total_history := wFull }

/-- A filesystem on which the counter table cannot be read. -/
def wFsNone : Fs :=
  { procInterrupts := none, i2cHidDriverDir := none, hidDevicesDir := none }

/-- A filesystem with a readable counter table but no HID-over-I2C driver
directory. -/
def wFsNoDriver : Fs :=
  { procInterrupts := some "H".toList, i2cHidDriverDir := none,
    hidDevicesDir := none }

/-- A filesystem with a readable counter table and one bound device, but no
generic HID bus directory. -/
def wFsNoHid : Fs :=
  { procInterrupts := some "H".toList
    i2cHidDriverDir := some
      [{ name := "i2c-ACPI0001:00".toList
         linkTarget := some "x/i2c_designware.3/i2c-3/y".toList }]
    hidDevicesDir := none }

/-! ## Helper lemmas on the string primitives -/

theorem splitBy_ne_nil (p : Char → Bool) (s : Str) : splitBy p s ≠ [] := by
  cases s with
  | nil => simp [splitBy]
  | cons c cs =>
    simp only [splitBy]
    split
    · simp
    · split <;> simp

theorem splitBy_eq_single_nil {p : Char → Bool} {s : Str}
    (h : splitBy p s = [[]]) : s = [] := by
  cases s with
  | nil => rfl
  | cons c cs =>
    exfalso
    simp only [splitBy] at h
    split at h
    · have := splitBy_ne_nil p cs
      simp_all
    · split at h <;> simp_all

theorem rustLines_eq_nil {s : Str} (h : rustLines s = []) : s = [] := by
  simp only [rustLines] at h
  split at h
  · next hl =>
    have hlen : (splitBy (fun c => c = '\n') s).length ≤ 1 := by
      have hh := congrArg List.length h
      simp [List.length_dropLast] at hh
      omega
    have hne := splitBy_ne_nil (fun c => c = '\n') s
    match hp : splitBy (fun c => c = '\n') s with
    | [] => exact absurd hp hne
    | [x] =>
      rw [hp] at hl
      simp at hl
      subst hl
      exact splitBy_eq_single_nil hp
    | x :: y :: rest =>
      rw [hp] at hlen
      simp at hlen
  · have hne := splitBy_ne_nil (fun c => c = '\n') s
    rw [List.append_eq_nil] at h
    have hd := h.2
    rw [List.drop_eq_nil_iff] at hd
    have : (splitBy (fun c => c = '\n') s).length ≠ 0 := by
      simpa [List.length_eq_zero] using hne
    omega

theorem dropWhile_head_false {p : Char → Bool} :
    ∀ {s : Str} {c : Char} {cs : Str}, s.dropWhile p = c :: cs → p c = false := by
  intro s
  induction s with
  | nil => intro c cs h; simp [List.dropWhile] at h
  | cons a as ih =>
    intro c cs h
    rw [List.dropWhile_cons] at h
    split at h
    · exact ih h
    · next hb =>
      cases h
      simpa using hb

theorem trim_isPrefix (s : Str) : trim s <+: s.dropWhile isWS := by
  unfold trim
  have hsfx : ((s.dropWhile isWS).reverse.dropWhile isWS) <:+ (s.dropWhile isWS).reverse :=
    List.dropWhile_suffix isWS
  have h2 := (@List.reverse_prefix Char
    ((s.dropWhile isWS).reverse.dropWhile isWS)
    ((s.dropWhile isWS).reverse)).mpr hsfx
  simpa using h2

theorem trim_head_not_ws {s : Str} {c : Char} {cs : Str}
    (h : trim s = c :: cs) : isWS c = false := by
  have hpre := trim_isPrefix s
  rw [h] at hpre
  obtain ⟨t, ht⟩ := hpre
  exact dropWhile_head_false ht.symm

theorem split_whitespace_cons_ne_nil {c : Char} {cs : Str} (hc : isWS c = false) :
    split_whitespace (c :: cs) ≠ [] := by
  unfold split_whitespace
  simp only [splitBy, hc]
  cases hr : splitBy isWS cs with
  | nil => exact absurd hr (splitBy_ne_nil isWS cs)
  | cons g gs => simp

theorem split_whitespace_trim_ne_nil {s : Str} (h : trim s ≠ []) :
    split_whitespace (trim s) ≠ [] := by
  match ht : trim s with
  | [] => exact absurd ht h
  | c :: cs => exact split_whitespace_cons_ne_nil (trim_head_not_ws ht)

/-! ## The counter-table parser (claims C4, C9) -/

theorem sumLeading_eq (l : List Str) (n : ℕ) :
    sumLeading l n =
      ((List.takeWhile (fun t => (parseU64 t).isSome) (l.take n)).map
        (fun t => (parseU64 t).getD 0)).sum % 2 ^ 64 := by
  induction l generalizing n with
  | nil => simp [sumLeading]
  | cons t ts ih =>
    cases n with
    | zero => simp [sumLeading]
    | succ n =>
      simp only [List.take_succ_cons, sumLeading]
      cases hp : parseU64 t with
      | some v => simp [List.takeWhile_cons, hp, ih, Nat.add_mod_mod]
      | none => simp [List.takeWhile_cons, hp]

/-- **C4 (amended).** For every counter-table text with a header line, and
for every data line the parser accepts, the parsed summed count of that
interrupt line equals the sum of its leading per-CPU integer columns — at
most as many columns as there are whitespace tokens in the header — reduced
modulo `2 ^ 64` (the `u64` accumulator wraps on overflow), with trailing
non-numeric annotation text contributing nothing; moreover the accepted line
contributes exactly that source to the overall parse. -/
theorem parsed_count_sums_cpu_columns (content hdr line : Str) (rest : List Str)
    (src : InterruptSource)
    (hlines : rustLines content = hdr :: rest) (hmem : line ∈ rest)
    (hp : parse_interrupt_line line ((split_whitespace hdr).length) = some src) :
    src.count =
      ((List.takeWhile (fun t => (parseU64 t).isSome)
          (((split_whitespace (trim line)).drop 1).take
            ((split_whitespace hdr).length))).map
        (fun t => (parseU64 t).getD 0)).sum % 2 ^ 64
    ∧ ∃ srcs, parse_interrupts content = .ok srcs ∧ src ∈ srcs := by
  constructor
  · simp only [parse_interrupt_line] at hp
    split at hp
    · exact absurd hp (by simp)
    · split at hp
      · exact absurd hp (by simp)
      · rw [Option.some.injEq] at hp
        subst hp
        exact sumLeading_eq _ _
  · refine ⟨rest.filterMap
      (fun l => parse_interrupt_line l ((split_whitespace hdr).length)), ?_, ?_⟩
    · simp only [parse_interrupts]
      rw [hlines]
    · exact List.mem_filterMap.mpr ⟨line, hmem, hp⟩

/-- **C4 counterexample.** Under a two-CPU header, a data line whose two
columns are both `u64::MAX` is accepted (each column parses as a `u64`), but
the accumulated count wraps to `2 ^ 64 - 2`, whereas the mathematical sum of
its per-CPU columns is `2 ^ 65 - 2`: the parsed count does not equal the
plain (unbounded) sum of the columns. -/
theorem u64_column_sum_wraps :
    rustLines ("C0 C1\n42: 18446744073709551615 18446744073709551615".toList)
      = ["C0 C1".toList,
         "42: 18446744073709551615 18446744073709551615".toList]
    ∧ parse_interrupt_line
        ("42: 18446744073709551615 18446744073709551615".toList)
        ((split_whitespace ("C0 C1".toList)).length)
      = some { irq := "42".toList, count := 2 ^ 64 - 2 }
    ∧ ((List.takeWhile (fun t => (parseU64 t).isSome)
          (((split_whitespace
              (trim ("42: 18446744073709551615 18446744073709551615".toList))).drop 1).take
            ((split_whitespace ("C0 C1".toList)).length))).map
        (fun t => (parseU64 t).getD 0)).sum = 2 ^ 65 - 2
    ∧ (2 ^ 64 - 2 : ℕ) ≠ 2 ^ 65 - 2 := by
  refine ⟨by decide, by decide, by decide, by decide⟩

theorem sumLeading_none {l : List Str} {cc : ℕ}
    (h : parseU64 (l.getD 1 []) = none) : sumLeading (l.drop 1) cc = 0 := by
  match l with
  | [] => rfl
  | [x] => rfl
  | x :: y :: r =>
    have hy : (x :: y :: r).getD 1 [] = y := rfl
    rw [hy] at h
    cases cc with
    | zero => rfl
    | succ n => simp [sumLeading, h]

/-- **C9 (amended).** The counter-table parser errors exactly on completely
empty input; it succeeds on every non-empty input; and every non-header line
containing a non-whitespace character yields an interrupt source — in
particular a line whose first token after the IRQ field does not parse as a
number yields a source with count 0 rather than being skipped or failing.
(The claim's "every non-empty line" is amended to "every non-blank line":
a line consisting only of whitespace yields no source.) -/
theorem parser_total_on_nonempty (content line : Str) (cc : ℕ)
    (hc : content ≠ []) (hline : trim line ≠ []) :
    (∃ e, parse_interrupts ([] : Str) = .error e)
    ∧ (∃ srcs, parse_interrupts content = .ok srcs)
    ∧ ∃ src, parse_interrupt_line line cc = some src
        ∧ (parseU64 ((split_whitespace (trim line)).getD 1 []) = none →
            src.count = 0) := by
  refine ⟨⟨"empty /proc/interrupts", rfl⟩, ?_, ?_⟩
  · match h : rustLines content with
    | [] => exact absurd (rustLines_eq_nil h) hc
    | hd :: rest =>
      have hok : parse_interrupts content =
          .ok (rest.filterMap
            (fun l => parse_interrupt_line l ((split_whitespace hd).length))) := by
        simp only [parse_interrupts]
        rw [h]
      exact ⟨_, hok⟩
  · have hsw := split_whitespace_trim_ne_nil hline
    simp only [parse_interrupt_line]
    rw [if_neg hline, if_neg hsw]
    exact ⟨_, rfl, fun h64 => sumLeading_none h64⟩

/-- **C9 counterexample.** The input `"H\n "` has a non-empty, non-header
second line (a single space), yet the parse succeeds with no sources at all:
a whitespace-only line does not yield an interrupt source. -/
theorem blank_line_yields_no_source :
    parse_interrupts ("H\n ".toList) = .ok []
    ∧ rustLines ("H\n ".toList) = ["H".toList, " ".toList]
    ∧ (" ".toList : Str) ≠ [] := by
  refine ⟨by rfl, by decide, by decide⟩

/-- Witness for `parsed_count_sums_cpu_columns` at a concrete input. -/
theorem parsed_count_sums_cpu_columns_witness :
    rustLines ("C0 C1\n42: 3 5 x".toList) = ["C0 C1".toList, "42: 3 5 x".toList]
    ∧ ("42: 3 5 x".toList ∈ ["42: 3 5 x".toList])
    ∧ parse_interrupt_line ("42: 3 5 x".toList)
        ((split_whitespace ("C0 C1".toList)).length)
        = some { irq := "42".toList, count := 8 }
    ∧ (({ irq := "42".toList, count := 8 } : InterruptSource).count =
        ((List.takeWhile (fun t => (parseU64 t).isSome)
            (((split_whitespace (trim ("42: 3 5 x".toList))).drop 1).take
              ((split_whitespace ("C0 C1".toList)).length))).map
          (fun t => (parseU64 t).getD 0)).sum % 2 ^ 64
      ∧ ∃ srcs, parse_interrupts ("C0 C1\n42: 3 5 x".toList) = .ok srcs
          ∧ { irq := "42".toList, count := 8 } ∈ srcs) :=
  ⟨by decide, by decide, by decide,
   parsed_count_sums_cpu_columns ("C0 C1\n42: 3 5 x".toList) ("C0 C1".toList)
     ("42: 3 5 x".toList) ["42: 3 5 x".toList] { irq := "42".toList, count := 8 }
     (by decide) (by decide) (by decide)⟩

/-- Witness for `parser_total_on_nonempty` at a concrete input. -/
theorem parser_total_on_nonempty_witness :
    (("H".toList : Str) ≠ []) ∧ (trim ("NMI: x".toList) ≠ [])
    ∧ ((∃ e, parse_interrupts ([] : Str) = .error e)
      ∧ (∃ srcs, parse_interrupts ("H".toList) = .ok srcs)
      ∧ ∃ src, parse_interrupt_line ("NMI: x".toList) 1 = some src
          ∧ (parseU64 ((split_whitespace (trim ("NMI: x".toList))).getD 1 []) = none →
              src.count = 0)) :=
  ⟨by decide, by decide,
   parser_total_on_nonempty ("H".toList) ("NMI: x".toList) 1 (by decide) (by decide)⟩

/-! ## The sampling engine (claims C1, C2, C3, C5) -/

theorem sampleGo_snd (counts : Str → Option ℕ) (e i : ℚ) (l : List SourceHistory) :
    (sampleGo counts e i l).2 = (l.map (tickRate counts i)).sum := by
  induction l with
  | nil => simp [sampleGo]
  | cons s rest ih =>
    simp only [sampleGo]
    cases h : counts s.irq with
    | some c => simp [h, tickRate, ih, SourceHistory.push]
    | none => simp [h, tickRate, ih]

theorem sampleGo_fst (counts : Str → Option ℕ) (e i : ℚ) (l : List SourceHistory) :
    (sampleGo counts e i l).1 = l.map (fun s =>
      match counts s.irq with
      | some c => s.push e c i
      | none => s) := by
  induction l with
  | nil => simp [sampleGo]
  | cons s rest ih =>
    simp only [sampleGo]
    cases h : counts s.irq with
    | some c => simp [h, ih]
    | none => simp [h, ih]

/-- **C1.** At every sampling tick, the value appended to the TOTAL series
(and stored as the latest total) equals the sum of the per-tick rates of all
tracked series, visible or not, computed at that same tick, with a series
whose IRQ is absent from the snapshot contributing zero; TOTAL is derived
from the same tick's rates, never an independently accumulated counter. -/
theorem total_is_pointwise_sum (app : App) (elapsed : ℚ)
    (counts : Str → Option ℕ) :
    (app.sample elapsed counts).total_latest
        = (app.sources.map (tickRate counts ((app.interval_ms : ℚ) / 1000))).sum
    ∧ (app.sample elapsed counts).total_history
        = windowPush app.total_history
            (elapsed,
             (app.sources.map (tickRate counts ((app.interval_ms : ℚ) / 1000))).sum) := by
  constructor
  · show (sampleGo counts elapsed ((app.interval_ms : ℚ) / 1000) app.sources).2 = _
    exact sampleGo_snd counts elapsed _ app.sources
  · show windowPush app.total_history
        (elapsed, (sampleGo counts elapsed ((app.interval_ms : ℚ) / 1000) app.sources).2) = _
    rw [sampleGo_snd]

theorem lookupA_insertA_self {α : Type} (m : List (Str × α)) (k : Str) (v : α) :
    lookupA (insertA m k v) k = some v := by
  unfold insertA
  induction m with
  | nil => simp [lookupA]
  | cons p ps ih =>
    by_cases hpk : p.1 = k
    · simpa [List.filter_cons, hpk] using ih
    · simpa [List.filter_cons, hpk, lookupA] using ih

theorem lookupA_append_single {α : Type} (l : List (Str × α)) (k k' : Str) (v : α)
    (hne : k' ≠ k) : lookupA (l ++ [(k, v)]) k' = lookupA l k' := by
  induction l with
  | nil =>
    simp only [List.nil_append, lookupA]
    rw [if_neg (fun hh => hne hh.symm)]
  | cons p ps ih =>
    simp only [List.cons_append, lookupA, List.append_eq]
    rw [ih]

theorem lookupA_filter_out {α : Type} (m : List (Str × α)) (k k' : Str)
    (hne : k' ≠ k) :
    lookupA (m.filter (fun p => p.1 ≠ k)) k' = lookupA m k' := by
  induction m with
  | nil => rfl
  | cons p ps ih =>
    by_cases hpk : p.1 = k
    · have hpk' : ¬ p.1 = k' := by
        rw [hpk]
        exact fun hh => hne hh.symm
      rw [List.filter_cons_of_neg (by simpa using hpk)]
      rw [ih]
      simp only [lookupA]
      rw [if_neg hpk']
    · rw [List.filter_cons_of_pos (by simpa using hpk)]
      simp only [lookupA]
      rw [ih]

theorem lookupA_insertA_ne {α : Type} (m : List (Str × α)) (k k' : Str) (v : α)
    (hne : k' ≠ k) : lookupA (insertA m k v) k' = lookupA m k' := by
  unfold insertA
  rw [lookupA_append_single _ _ _ _ hne]
  exact lookupA_filter_out _ _ _ hne

theorem rateOf_zero_curr (p : ℕ) (i : ℚ) : rateOf p 0 i = 0 := by
  simp [rateOf]

theorem monitorGo_rate_absent (current : Str → Option ℕ) (i t : ℚ) :
    ∀ (l : List InterruptSourceInfo) (prev : List (Str × ℕ)) (j : ℕ)
      (hj : j < l.length), current (l.get ⟨j, hj⟩).irq = none →
      (monitorGo current i t l prev).2.1[j]? = some 0 := by
  intro l
  induction l with
  | nil =>
    intro prev j hj
    exact absurd hj (by simp)
  | cons src rest ih =>
    intro prev j hj habs
    cases j with
    | zero =>
      simp only [List.get] at habs
      simp [monitorGo, habs, rateOf_zero_curr]
    | succ j =>
      have hj' : j < rest.length := by simpa using hj
      simp only [List.get] at habs
      simpa [monitorGo] using ih (insertA prev src.irq ((current src.irq).getD 0)) j hj' habs

theorem monitorGo_baseline_absent (current : Str → Option ℕ) (i t : ℚ) :
    ∀ (l : List InterruptSourceInfo) (prev : List (Str × ℕ)) (k : Str),
      current k = none →
      ((∃ src ∈ l, src.irq = k) ∨ lookupA prev k = some 0) →
      lookupA (monitorGo current i t l prev).1 k = some 0 := by
  intro l
  induction l with
  | nil =>
    intro prev k hk hd
    rcases hd with ⟨src, hmem, _⟩ | h0
    · simp at hmem
    · simpa [monitorGo] using h0
  | cons src rest ih =>
    intro prev k hk hd
    simp only [monitorGo]
    by_cases hsk : src.irq = k
    · apply ih _ k hk
      right
      rw [hsk, hk]
      simpa using lookupA_insertA_self prev k 0
    · apply ih _ k hk
      rcases hd with ⟨s, hmem, hs⟩ | h0
      · rcases List.mem_cons.mp hmem with rfl | hmem'
        · exact absurd hs hsk
        · exact Or.inl ⟨s, hmem', hs⟩
      · right
        rw [lookupA_insertA_ne _ _ _ _ (fun hh => hsk hh.symm)]
        exact h0

/-- **C2 (amended).** For a sampling tick in which a tracked source's IRQ id
is absent from the new counter snapshot: in the interactive sampler
(`App::sample`) the source entry is left entirely unchanged — its
previous-count baseline intact and no sample appended — and it contributes a
zero rate to the tick; in the non-interactive monitor loop (`cmd_monitor`)
the printed rate for that tick is likewise zero, but the previous-count
baseline is *not* left unchanged: it is overwritten with the absent-default
count 0. -/
theorem absent_irq_tick (app : App) (e : ℚ) (counts : Str → Option ℕ)
    (i : ℕ) (hi : i < app.sources.length)
    (habs : counts (app.sources[i]).irq = none)
    (sources : List InterruptSourceInfo) (prev : List (Str × ℕ))
    (current : Str → Option ℕ) (interval_s threshold : ℚ) (j : ℕ)
    (hj : j < sources.length)
    (habs2 : current (sources[j]).irq = none) :
    (app.sample e counts).sources[i]? = some (app.sources[i])
    ∧ tickRate counts ((app.interval_ms : ℚ) / 1000) (app.sources[i]) = 0
    ∧ (monitor_tick sources prev current interval_s threshold).2.1[j]? = some 0
    ∧ lookupA (monitor_tick sources prev current interval_s threshold).1
        (sources[j]).irq = some 0 := by
  refine ⟨?_, ?_, ?_, ?_⟩
  · show (sampleGo counts e ((app.interval_ms : ℚ) / 1000) app.sources).1[i]? = _
    rw [sampleGo_fst]
    rw [List.getElem?_map]
    rw [List.getElem?_eq_getElem hi]
    simp [habs]
  · simp [tickRate, habs]
  · have habs2' : current (sources.get ⟨j, hj⟩).irq = none := by
      simpa using habs2
    exact monitorGo_rate_absent current interval_s threshold sources prev j hj habs2'
  · exact monitorGo_baseline_absent current interval_s threshold sources prev _ habs2
      (Or.inl ⟨_, List.getElem_mem hj, rfl⟩)

/-- **C2 counterexample.** With one tracked source on IRQ "42", a stored
baseline of 5, and a snapshot from which IRQ "42" is absent, one
`cmd_monitor` tick prints rate 0 but rewrites the baseline to 0: the
previous-count baseline is not left unchanged in the monitor loop. -/
theorem monitor_overwrites_absent_baseline :
    (monitor_tick
      [{ irq := "42".toList, name := "d".toList, device_type := "T".toList,
         is_controller := false, parent_controller := none, indent_level := 1 }]
      [("42".toList, 5)] (fun _ => none) 1 100).1 = [("42".toList, 0)]
    ∧ (monitor_tick
      [{ irq := "42".toList, name := "d".toList, device_type := "T".toList,
         is_controller := false, parent_controller := none, indent_level := 1 }]
      [("42".toList, 5)] (fun _ => none) 1 100).2.1 = [0]
    ∧ lookupA (monitor_tick
      [{ irq := "42".toList, name := "d".toList, device_type := "T".toList,
         is_controller := false, parent_controller := none, indent_level := 1 }]
      [("42".toList, 5)] (fun _ => none) 1 100).1 ("42".toList) ≠ some 5 := by
  refine ⟨?_, ?_, ?_⟩
  · simp [monitor_tick, monitorGo, lookupA, insertA, rateOf]
  · simp [monitor_tick, monitorGo, lookupA, rateOf]
  · simp [monitor_tick, monitorGo, lookupA, insertA, rateOf]

/-- **C3.** For every pair of raw counter values and every positive sampling
interval, the computed rate — both in `SourceHistory::push` and in the
`cmd_monitor` formula — equals `max 0 (current - previous) / interval` and is
therefore never negative, including when the current count is below the
previous one. -/
theorem rate_clamped_nonneg (h : SourceHistory) (e : ℚ) (curr : ℕ) (i : ℚ)
    (p : ℕ) (hi : 0 < i) :
    (h.push e curr i).latest_rate = max 0 ((curr : ℚ) - (h.prev_count : ℚ)) / i
    ∧ 0 ≤ (h.push e curr i).latest_rate
    ∧ rateOf p curr i = max 0 ((curr : ℚ) - (p : ℚ)) / i
    ∧ 0 ≤ rateOf p curr i := by
  have key : ∀ q : ℕ, rateOf q curr i = max 0 ((curr : ℚ) - (q : ℚ)) / i := by
    intro q
    unfold rateOf
    rcases le_total q curr with hle | hle
    · rw [Nat.cast_sub hle]
      rw [max_eq_right (by
        have : (q : ℚ) ≤ (curr : ℚ) := by exact_mod_cast hle
        linarith)]
    · rw [Nat.sub_eq_zero_of_le hle]
      rw [max_eq_left (by
        have : (curr : ℚ) ≤ (q : ℚ) := by exact_mod_cast hle
        linarith)]
      simp
  have nn : ∀ q : ℕ, 0 ≤ rateOf q curr i := by
    intro q
    unfold rateOf
    positivity
  exact ⟨key h.prev_count, nn h.prev_count, key p, nn p⟩

theorem windowPush_length_le (l : List (ℚ × ℚ)) (x : ℚ × ℚ)
    (h : l.length ≤ MAX_POINTS) : (windowPush l x).length ≤ MAX_POINTS := by
  unfold windowPush
  split
  · next hfull =>
    have h30 : (0 : ℕ) < MAX_POINTS := by norm_num [MAX_POINTS]
    simp only [List.length_append, List.length_tail, List.length_singleton]
    omega
  · next hlt =>
    simp only [List.length_append, List.length_singleton]
    omega

theorem windowPush_full (l : List (ℚ × ℚ)) (x : ℚ × ℚ)
    (h : l.length = MAX_POINTS) : windowPush l x = l.tail ++ [x] := by
  unfold windowPush
  rw [if_pos (le_of_eq h.symm)]

/-- **C5.** Per-source history buffers and the TOTAL history buffer are
scrolling windows: any single push and any sequence of pushes keep the
length at or below `MAX_POINTS` (= 300), and a push at exactly full capacity
evicts the oldest (front) sample first. -/
theorem history_window_bounded
    (h1 h2 : SourceHistory) (e : ℚ) (c : ℕ) (i : ℚ)
    (app1 app2 : App) (e2 : ℚ) (counts : Str → Option ℕ)
    (ops : List (ℚ × ℕ × ℚ))
    (hb1 : h1.data.length ≤ MAX_POINTS)
    (hb2 : h2.data.length = MAX_POINTS)
    (ha1 : app1.total_history.length ≤ MAX_POINTS)
    (ha2 : app2.total_history.length = MAX_POINTS) :
    (h1.push e c i).data.length ≤ MAX_POINTS
    ∧ ((ops.foldl (fun a q => a.push q.1 q.2.1 q.2.2) h1).data.length ≤ MAX_POINTS)
    ∧ (h2.push e c i).data = h2.data.tail ++ [(e, rateOf h2.prev_count c i)]
    ∧ (app1.sample e2 counts).total_history.length ≤ MAX_POINTS
    ∧ (app2.sample e2 counts).total_history
        = app2.total_history.tail
            ++ [(e2, (app2.sources.map (tickRate counts ((app2.interval_ms : ℚ) / 1000))).sum)] := by
  refine ⟨?_, ?_, ?_, ?_, ?_⟩
  · exact windowPush_length_le _ _ hb1
  · clear hb2 ha1 ha2
    induction ops generalizing h1 with
    | nil => exact hb1
    | cons q qs ih =>
      exact ih _ (windowPush_length_le _ _ hb1)
  · show windowPush h2.data _ = _
    exact windowPush_full _ _ hb2
  · exact windowPush_length_le _ _ ha1
  · show windowPush app2.total_history
        (e2, (sampleGo counts e2 ((app2.interval_ms : ℚ) / 1000) app2.sources).2) = _
    rw [sampleGo_snd]
    exact windowPush_full _ _ ha2

/-! ## The selection state machine (claim C6) -/

/-- **C6.** With `count = number_of_series + 1` selectable rows (the extra
row being TOTAL), select-next from the last index wraps to 0, select-previous
from 0 wraps to the last index, and both operations keep the cursor within
`[0, count - 1]`. -/
theorem selection_wraps (app : App)
    (hsel : app.selected_idx < app.selectable_count) :
    app.selectable_count = app.sources.length + 1
    ∧ app.select_next.selected_idx < app.selectable_count
    ∧ app.select_prev.selected_idx < app.selectable_count
    ∧ (app.selected_idx = app.selectable_count - 1 →
        app.select_next.selected_idx = 0)
    ∧ (app.selected_idx = 0 →
        app.select_prev.selected_idx = app.selectable_count - 1) := by
  have hpos : 0 < app.selectable_count := by
    simp [App.selectable_count]
  have hne : app.selectable_count ≠ 0 := Nat.pos_iff_ne_zero.mp hpos
  refine ⟨rfl, ?_, ?_, ?_, ?_⟩
  · simp only [App.select_next, if_neg hne]
    exact Nat.mod_lt _ hpos
  · simp only [App.select_prev, if_neg hne]
    split
    · next hgt =>
      show app.selected_idx - 1 < app.selectable_count
      omega
    · next hle =>
      show app.selectable_count - 1 < app.selectable_count
      omega
  · intro hlast
    simp only [App.select_next, if_neg hne, hlast]
    show (app.selectable_count - 1 + 1) % app.selectable_count = 0
    have hc : app.selectable_count - 1 + 1 = app.selectable_count := by omega
    rw [hc]
    exact Nat.mod_self _
  · intro h0
    simp only [App.select_prev, if_neg hne, h0]
    show (if 0 > 0 then app.selected_idx - 1 else app.selectable_count - 1)
        = app.selectable_count - 1
    simp

/-- Witness for `absent_irq_tick` at a concrete input. -/
theorem absent_irq_tick_witness :
    (0 < wApp.sources.length)
    ∧ ((fun _ => none : Str → Option ℕ) (wApp.sources[0]).irq = none)
    ∧ (0 < [wInfo].length)
    ∧ ((fun _ => none : Str → Option ℕ) ([wInfo][0]).irq = none)
    ∧ ((wApp.sample 1 (fun _ => none)).sources[0]? = some (wApp.sources[0])
      ∧ tickRate (fun _ => none) ((wApp.interval_ms : ℚ) / 1000) (wApp.sources[0]) = 0
      ∧ (monitor_tick [wInfo] [] (fun _ => none) 1 100).2.1[0]? = some 0
      ∧ lookupA (monitor_tick [wInfo] [] (fun _ => none) 1 100).1
          ([wInfo][0]).irq = some 0) :=
  ⟨by simp [wApp], rfl, by simp, rfl,
   absent_irq_tick wApp 1 (fun _ => none) 0 (by simp [wApp]) rfl
     [wInfo] [] (fun _ => none) 1 100 0 (by simp) rfl⟩

/-- Witness for `rate_clamped_nonneg` at a concrete input. -/
theorem rate_clamped_nonneg_witness :
    (0 : ℚ) < 1
    ∧ ((wHist.push 2 3 1).latest_rate
          = max 0 (((3 : ℕ) : ℚ) - (wHist.prev_count : ℚ)) / 1
      ∧ 0 ≤ (wHist.push 2 3 1).latest_rate
      ∧ rateOf 7 3 1 = max 0 (((3 : ℕ) : ℚ) - ((7 : ℕ) : ℚ)) / 1
      ∧ 0 ≤ rateOf 7 3 1) :=
  ⟨by norm_num, rate_clamped_nonneg wHist 2 3 1 7 (by norm_num)⟩

/-- Witness for `history_window_bounded` at a concrete input. -/
theorem history_window_bounded_witness :
    (wHist.data.length ≤ MAX_POINTS)
    ∧ (wHistFull.data.length = MAX_POINTS)
    ∧ (wApp.total_history.length ≤ MAX_POINTS)
    ∧ (wAppFull.total_history.length = MAX_POINTS)
    ∧ ((wHist.push 1 3 1).data.length ≤ MAX_POINTS
      ∧ (([((1 : ℚ), (2 : ℕ), (1 : ℚ))].foldl
            (fun a q => a.push q.1 q.2.1 q.2.2) wHist).data.length ≤ MAX_POINTS)
      ∧ (wHistFull.push 1 3 1).data
          = wHistFull.data.tail ++ [(1, rateOf wHistFull.prev_count 3 1)]
      ∧ (wApp.sample 1 (fun _ => none)).total_history.length ≤ MAX_POINTS
      ∧ (wAppFull.sample 1 (fun _ => none)).total_history
          = wAppFull.total_history.tail
              ++ [(1, (wAppFull.sources.map
                    (tickRate (fun _ => none) ((wAppFull.interval_ms : ℚ) / 1000))).sum)]) :=
  ⟨by simp [wHist, SourceHistory.new], by simp [wHistFull, wFull],
   by simp [wApp, App.new], by simp [wAppFull, wFull],
   history_window_bounded wHist wHistFull 1 3 1 wApp wAppFull 1 (fun _ => none)
     [((1 : ℚ), (2 : ℕ), (1 : ℚ))]
     (by simp [wHist, SourceHistory.new]) (by simp [wHistFull, wFull])
     (by simp [wApp, App.new]) (by simp [wAppFull, wFull])⟩

/-- Witness for `selection_wraps` at a concrete input. -/
theorem selection_wraps_witness :
    (({ wApp with selected_idx := 1 } : App).selected_idx
        < ({ wApp with selected_idx := 1 } : App).selectable_count)
    ∧ (({ wApp with selected_idx := 1 } : App).selectable_count
          = ({ wApp with selected_idx := 1 } : App).sources.length + 1
      ∧ ({ wApp with selected_idx := 1 } : App).select_next.selected_idx
          < ({ wApp with selected_idx := 1 } : App).selectable_count
      ∧ ({ wApp with selected_idx := 1 } : App).select_prev.selected_idx
          < ({ wApp with selected_idx := 1 } : App).selectable_count
      ∧ (({ wApp with selected_idx := 1 } : App).selected_idx
            = ({ wApp with selected_idx := 1 } : App).selectable_count - 1 →
          ({ wApp with selected_idx := 1 } : App).select_next.selected_idx = 0)
      ∧ (({ wApp with selected_idx := 1 } : App).selected_idx = 0 →
          ({ wApp with selected_idx := 1 } : App).select_prev.selected_idx
            = ({ wApp with selected_idx := 1 } : App).selectable_count - 1)) :=
  ⟨by simp [wApp, App.selectable_count],
   selection_wraps { wApp with selected_idx := 1 }
     (by simp [wApp, App.selectable_count])⟩

/-! ## The flattened source list (claim C10) -/

theorem devFold_eq (c : I2cController) (ds : List HidDevice)
    (acc : List InterruptSourceInfo) :
    ds.foldl (fun acc2 d =>
      match d.gpio_irq with
      | some irq => acc2 ++ [devInfo c d irq]
      | none => acc2) acc
    = acc ++ ds.filterMap (fun d => (d.gpio_irq).map (fun irq => devInfo c d irq)) := by
  induction ds generalizing acc with
  | nil => simp
  | cons d ds ih =>
    rw [List.foldl_cons]
    cases hg : d.gpio_irq with
    | some irq => simp [hg, ih]
    | none => simp [hg, ih]

theorem all_sources_foldl (cs : List I2cController) (acc : List InterruptSourceInfo) :
    cs.foldl (fun acc c =>
      let acc1 :=
        match c.irq with
        | some irq => acc ++ [ctrlInfo c irq]
        | none => acc
      c.hid_devices.foldl (fun acc2 d =>
        match d.gpio_irq with
        | some irq => acc2 ++ [devInfo c d irq]
        | none => acc2) acc1) acc
    = acc ++ cs.flatMap (fun c =>
        (match c.irq with
         | some irq => [ctrlInfo c irq]
         | none => []) ++
        c.hid_devices.filterMap (fun d => (d.gpio_irq).map (fun irq => devInfo c d irq))) := by
  induction cs generalizing acc with
  | nil => simp
  | cons c cs ih =>
    rw [List.foldl_cons, List.flatMap_cons]
    rw [devFold_eq]
    cases hi : c.irq with
    | some irq => simp [hi, ih]
    | none => simp [hi, ih]

/-- **C10.** The flattened source list contains a controller row exactly for
the controllers with a known controller IRQ and a device row exactly for the
devices with a GPIO IRQ (each naming its controller as parent); a controller
lacking an IRQ is omitted from the flat list while its devices with GPIO
IRQs still appear — i.e. `all_sources` agrees with `allSourcesSpec`, the
list the specification describes. -/
theorem all_sources_rows (t : I2cTopology) :
    t.all_sources = allSourcesSpec t := by
  unfold I2cTopology.all_sources allSourcesSpec
  rw [all_sources_foldl t.controllers []]
  simp

/-! ## The Y-axis bound (claim C7) -/

theorem nice_step_pos (x : ℚ) : 0 < nice_step x := by
  simp only [nice_step]
  split
  · norm_num
  · split_ifs <;> positivity

theorem nice_step_form (x : ℚ) :
    ∃ k : ℤ, nice_step x = 1 * (10 : ℚ) ^ k ∨ nice_step x = 2 * (10 : ℚ) ^ k
      ∨ nice_step x = 5 * (10 : ℚ) ^ k ∨ nice_step x = 10 * (10 : ℚ) ^ k := by
  simp only [nice_step]
  split
  · exact ⟨0, Or.inl (by norm_num)⟩
  · refine ⟨Int.log 10 (x / TARGET_Y_LABELS), ?_⟩
    split_ifs with h1 h2 h3
    · exact Or.inl rfl
    · exact Or.inr (Or.inl rfl)
    · exact Or.inr (Or.inr (Or.inl rfl))
    · exact Or.inr (Or.inr (Or.inr rfl))

theorem ceil_to_step_ge (v s : ℚ) (hs : 0 < s) : v ≤ ceil_to_step v s := by
  unfold ceil_to_step
  have h1 : v / s ≤ (⌈v / s⌉ : ℚ) := Int.le_ceil _
  calc v = v / s * s := by field_simp
    _ ≤ (⌈v / s⌉ : ℚ) * s := mul_le_mul_of_nonneg_right h1 hs.le

theorem nice_step_42 : nice_step 42 = 10 := by
  have h42 : ((42 : ℚ)) / TARGET_Y_LABELS = 42 / 5 := by
    norm_num [TARGET_Y_LABELS]
  have hlog : Int.log 10 ((42 : ℚ) / TARGET_Y_LABELS) = 0 := by
    rw [h42]
    rw [Int.log_of_one_le_right _ (by norm_num)]
    have hfl : ⌊(42 / 5 : ℚ)⌋₊ = 8 := by
      rw [Nat.floor_eq_iff (by norm_num)]
      norm_num
    rw [hfl]
    exact_mod_cast Nat.log_of_lt (by norm_num)
  simp only [nice_step]
  rw [if_neg (by norm_num : ¬ (42 : ℚ) ≤ 0)]
  rw [hlog, h42]
  norm_num

theorem ceil_to_step_42 : ceil_to_step 42 (nice_step 42) = 50 := by
  rw [nice_step_42]
  unfold ceil_to_step
  have hceil : ⌈(42 : ℚ) / 10⌉ = 5 := by
    rw [Int.ceil_eq_iff]
    constructor <;> norm_num
  rw [hceil]
  norm_num

/-- **C7.** The Y-axis upper bound equals the maximum rate over all currently
visible series (and the TOTAL series when visible) inflated by 10% headroom
and floored at 10 units/second, rounded up to a whole multiple of a nice
step of the form {1, 2, 5, 10}·10^k; for a target maximum of 42 the chosen
step is 10 (of that form) and the rounded ceiling is 50 ≥ 42. -/
theorem y_max_nice (app : App) :
    app.y_max
        = ceil_to_step (max (app.visible_max * (11 / 10)) 10)
            (nice_step (max (app.visible_max * (11 / 10)) 10))
    ∧ 10 ≤ max (app.visible_max * (11 / 10)) 10
    ∧ (∃ k : ℤ, nice_step (max (app.visible_max * (11 / 10)) 10) = 1 * (10 : ℚ) ^ k
        ∨ nice_step (max (app.visible_max * (11 / 10)) 10) = 2 * (10 : ℚ) ^ k
        ∨ nice_step (max (app.visible_max * (11 / 10)) 10) = 5 * (10 : ℚ) ^ k
        ∨ nice_step (max (app.visible_max * (11 / 10)) 10) = 10 * (10 : ℚ) ^ k)
    ∧ max (app.visible_max * (11 / 10)) 10 ≤ app.y_max
    ∧ (∃ n : ℤ, app.y_max
        = (n : ℚ) * nice_step (max (app.visible_max * (11 / 10)) 10))
    ∧ nice_step 42 = 10
    ∧ ceil_to_step 42 (nice_step 42) = 50
    ∧ (42 : ℚ) ≤ ceil_to_step 42 (nice_step 42) := by
  refine ⟨rfl, le_max_right _ _, nice_step_form _, ?_, ?_, nice_step_42,
    ceil_to_step_42, ?_⟩
  · show max (app.visible_max * (11 / 10)) 10
        ≤ ceil_to_step (max (app.visible_max * (11 / 10)) 10)
            (nice_step (max (app.visible_max * (11 / 10)) 10))
    exact ceil_to_step_ge _ _ (nice_step_pos _)
  · exact ⟨⌈max (app.visible_max * (11 / 10)) 10
        / nice_step (max (app.visible_max * (11 / 10)) 10)⌉, rfl⟩
  · exact ceil_to_step_ge _ _ (nice_step_pos _)

/-! ## Topology discovery error handling (claim C8) -/

theorem lookupA_mem {α : Type} {m : List (Str × α)} {k : Str} {v : α}
    (h : lookupA m k = some v) : (k, v) ∈ m := by
  induction m with
  | nil => simp [lookupA] at h
  | cons p ps ih =>
    simp only [lookupA] at h
    split at h
    · next hk =>
      rw [Option.some.injEq] at h
      subst h
      rw [← hk]
      exact List.mem_cons_self _ _
    · exact List.mem_cons_of_mem _ (ih h)

theorem discover_hid_device_detailFree (fs : Fs) (hdd : fs.hidDevicesDir = none)
    (acpi_name controller : Str) (bus_num : ℕ) (t : I2cTopology) :
    detailFree (discover_hid_device fs acpi_name controller bus_num t) := by
  have hmt : (([] : Str) = "hid-multitouch".toList) = False := by decide
  have hsh : (([] : Str) = "hid-sensor-hub".toList) = False := by decide
  have hg : (([] : Str) = "hid-generic".toList) = False := by decide
  simp [discover_hid_device, hdd, detailFree, determine_device_type, hmt, hsh, hg]

theorem processEntry_detailFree (fs : Fs) (hdd : fs.hidDevicesDir = none)
    (t : I2cTopology) (m : List (Str × I2cController)) (e : DirEntry)
    (hm : ∀ p ∈ m, ∀ d ∈ p.2.hid_devices, detailFree d) :
    ∀ p ∈ processEntry fs t m e, ∀ d ∈ p.2.hid_devices, detailFree d := by
  simp only [processEntry]
  split
  · exact hm
  · split
    · next c hc =>
      intro p hp d hd
      unfold insertA at hp
      rcases List.mem_append.mp hp with hpf | hpx
      · exact hm p (List.mem_filter.mp hpf).1 d hd
      · simp only [List.mem_singleton] at hpx
        subst hpx
        simp only at hd
        rcases List.mem_append.mp hd with hdc | hdx
        · exact hm _ (lookupA_mem hc) d hdc
        · simp only [List.mem_singleton] at hdx
          subst hdx
          exact discover_hid_device_detailFree fs hdd _ _ _ _
    · intro p hp d hd
      rcases List.mem_append.mp hp with hpm | hpx
      · exact hm p hpm d hd
      · simp only [List.mem_singleton] at hpx
        subst hpx
        simp only at hd
        rcases List.mem_singleton.mp hd with rfl
        exact discover_hid_device_detailFree fs hdd _ _ _ _

theorem discoverControllers_detailFree (fs : Fs) (hdd : fs.hidDevicesDir = none)
    (t : I2cTopology) :
    ∀ p ∈ discoverControllers fs t, ∀ d ∈ p.2.hid_devices, detailFree d := by
  unfold discoverControllers
  split
  · simp
  · next entries _ =>
    have hgen : ∀ (es : List DirEntry) (m : List (Str × I2cController)),
        (∀ p ∈ m, ∀ d ∈ p.2.hid_devices, detailFree d) →
        ∀ p ∈ es.foldl (processEntry fs t) m, ∀ d ∈ p.2.hid_devices, detailFree d := by
      intro es
      induction es with
      | nil => intro m hm; exact hm
      | cons e es ih =>
        intro m hm
        exact ih _ (processEntry_detailFree fs hdd t m e hm)
    exact hgen entries [] (by simp)

/-- **C8.** Topology discovery returns an error when the interrupt-counter
table cannot be read, while absence of the device-hierarchy directories is
not an error: an absent HID-over-I2C driver directory yields a topology with
no controllers, and an absent generic HID bus directory yields a successful
topology whose devices merely carry no identity/driver/input details. -/
theorem discover_error_handling (fs fs2 fs3 : Fs)
    (h1 : fs.procInterrupts = none)
    (h2 : fs2.procInterrupts.isSome = true) (h2b : fs2.i2cHidDriverDir = none)
    (h3 : fs3.procInterrupts.isSome = true) (h3b : fs3.hidDevicesDir = none) :
    (∃ e, discover fs = .error e)
    ∧ (∃ t, discover fs2 = .ok t ∧ t.controllers = [])
    ∧ (∃ t, discover fs3 = .ok t
        ∧ ∀ c ∈ t.controllers, ∀ d ∈ c.hid_devices, detailFree d) := by
  refine ⟨?_, ?_, ?_⟩
  · refine ⟨"failed to read /proc/interrupts", ?_⟩
    unfold discover
    rw [h1]
  · obtain ⟨c2, hc2⟩ := Option.isSome_iff_exists.mp h2
    refine ⟨discoverBody fs2 c2, ?_, ?_⟩
    · unfold discover
      rw [hc2]
    · show (discoverBody fs2 c2).controllers = []
      unfold discoverBody discoverControllers
      rw [h2b]
      simp
  · obtain ⟨c3, hc3⟩ := Option.isSome_iff_exists.mp h3
    refine ⟨discoverBody fs3 c3, ?_, ?_⟩
    · unfold discover
      rw [hc3]
    · intro ctrl hctrl d hd
      have hmem : ctrl ∈ ((discoverControllers fs3
          ((rustLines c3).foldl scanLine
            { controllers := [], gpio_irqs := [], controller_irqs := [] })).map
          (fun p => p.2)) := by
        have hperm := List.mergeSort_perm ((discoverControllers fs3
          ((rustLines c3).foldl scanLine
            { controllers := [], gpio_irqs := [], controller_irqs := [] })).map
          (fun p => p.2)) (fun a b => decide (a.bus_num ≤ b.bus_num))
        exact hperm.mem_iff.mp hctrl
      obtain ⟨p, hp, hpe⟩ := List.mem_map.mp hmem
      subst hpe
      exact discoverControllers_detailFree fs3 h3b _ p hp d hd

/-- Witness for `discover_error_handling` at concrete filesystems. -/
theorem discover_error_handling_witness :
    (wFsNone.procInterrupts = none)
    ∧ (wFsNoDriver.procInterrupts.isSome = true)
    ∧ (wFsNoDriver.i2cHidDriverDir = none)
    ∧ (wFsNoHid.procInterrupts.isSome = true)
    ∧ (wFsNoHid.hidDevicesDir = none)
    ∧ ((∃ e, discover wFsNone = .error e)
      ∧ (∃ t, discover wFsNoDriver = .ok t ∧ t.controllers = [])
      ∧ (∃ t, discover wFsNoHid = .ok t
          ∧ ∀ c ∈ t.controllers, ∀ d ∈ c.hid_devices, detailFree d)) :=
  ⟨rfl, rfl, rfl, rfl, rfl,
   discover_error_handling wFsNone wFsNoDriver wFsNoHid rfl rfl rfl rfl rfl⟩

end I2cMon
